import Mathlib

/-!
Shallow embedding of the taeback-server points/ledger core (src/index.js).

Tables are modelled as lists of rows; keyed single-row tables are accessed
with List.find? (the SQL primary-key lookup).  Each HTTP handler that runs a
BEGIN/COMMIT block is one Lean function from a database state to a result
paired with the next state; a ROLLBACK path returns the unchanged state.
Amounts are integers (the schema stores integer currency units).
-/

/-- One row of `point_ledger`. -/
structure LedgerEntry where
  store_id : Nat
  type : String
  amount : Int
  ref_type : String
  ref_id : Nat
  memo : String
deriving DecidableEq, Repr

/-- One row of `point_topups` (fields used by the core). -/
structure Topup where
  id : Nat
  store_id : Nat
  amount : Int
  status : String
  deposit_code : Option String
deriving DecidableEq, Repr

/-- One row of `orders`. -/
structure OrderRow where
  id : Nat
  store_id : Nat
  head_office_id : Nat
  status : String
  total_amount : Int
deriving DecidableEq, Repr

/-- One row of `order_items`. -/
structure OrderItem where
  order_id : Nat
  product_id : Nat
  qty : Int
  unit_price : Int
  line_total : Int
deriving DecidableEq, Repr

/-- One row of `products` (fields used by order pricing). -/
structure Product where
  id : Nat
  head_office_id : Nat
  price : Int
deriving DecidableEq, Repr

/-- One row of `bank_incoming_processed`. -/
structure BankTx where
  tx_id : String
  amount : Int
  depositor : Option String
  memo : Option String
  occurred_at : Option String
  matched_topup_id : Option Nat
  matched_store_id : Option Nat
deriving DecidableEq, Repr

/-- The database state touched by the points/ledger core.  `stores` maps a
store id to its head office id; `wallets` is `store_wallets` as
(store_id, balance) rows; `next_order_id` models the `orders` id sequence. -/
structure DB where
  stores : List (Nat × Nat)
  products : List Product
  wallets : List (Nat × Int)
  ledger : List LedgerEntry
  topups : List Topup
  orders : List OrderRow
  order_items : List OrderItem
  bank_processed : List BankTx
  next_order_id : Nat
deriving DecidableEq, Repr

/-! ## Deposit code generation and extraction (makeDepositCode / extractDepositCode) -/

/-- The decimal digit character for `d < 10`. -/
def digitChar : Nat → Char
  | 0 => '0' | 1 => '1' | 2 => '2' | 3 => '3' | 4 => '4'
  | 5 => '5' | 6 => '6' | 7 => '7' | 8 => '8' | 9 => '9'
  | _ => '?'

/-- Fueled decimal rendering of a natural number (least significant digit
last), enough fuel making it total. -/
def toDecimalAux : Nat → Nat → List Char
  | 0, _ => []
  | fuel + 1, n =>
    if n < 10 then [digitChar n]
    else toDecimalAux fuel (n / 10) ++ [digitChar (n % 10)]

/-- Decimal rendering of a natural number, as JS string interpolation does. -/
def toDecimal (n : Nat) : List Char := toDecimalAux (n + 1) n

/-- `makeDepositCode(headOfficeId, storeId, topupId)` from src/index.js:
the template string `headOfficeId-storeId-topupId`. -/
def makeDepositCode (headOfficeId storeId topupId : Nat) : String :=
  ⟨toDecimal headOfficeId ++ '-' :: (toDecimal storeId ++ '-' :: toDecimal topupId)⟩

/-- Numeric value of a digit character. -/
def digitVal (c : Char) : Nat := c.toNat - '0'.toNat

/-- Number denoted by a digit string, most significant digit first. -/
def fromDigits (ds : List Char) : Nat :=
  ds.foldl (fun a c => a * 10 + digitVal c) 0

/-- Split off the leading maximal run of decimal digits. -/
def takeDigits : List Char → List Char × List Char
  | [] => ([], [])
  | c :: rest =>
    if c.isDigit then
      let p := takeDigits rest
      (c :: p.1, p.2)
    else ([], c :: rest)

/-- JS regex word character class `\w` (ASCII letters, digits, underscore). -/
def isWordChar (c : Char) : Bool := c.isAlphanum || c == '_'

/-- Whether a `\b` word boundary holds before a digit, given the previous
character (none at the start of the text). -/
def boundaryBefore : Option Char → Bool
  | none => true
  | some p => !isWordChar p

/-- Attempt to match `(\d+)-(\d+)-(\d+)\b` at the head of the text.  The
greedy digit runs need no backtracking: a maximal run is followed by a
non-digit, so shortening it can never let `-` or `\b` match. -/
def matchCodeAt (l : List Char) : Option (Nat × Nat × Nat) :=
  let p1 := takeDigits l
  if p1.1 = [] then none else
  match p1.2 with
  | '-' :: r2 =>
    let p2 := takeDigits r2
    if p2.1 = [] then none else
    match p2.2 with
    | '-' :: r4 =>
      let p3 := takeDigits r4
      if p3.1 = [] then none else
      match p3.2 with
      | [] => some (fromDigits p1.1, fromDigits p2.1, fromDigits p3.1)
      | c :: _ =>
        if isWordChar c then none
        else some (fromDigits p1.1, fromDigits p2.1, fromDigits p3.1)
    | _ => none
  | _ => none

/-- Left-to-right scan for the first position where `\b(\d+)-(\d+)-(\d+)\b`
matches, carrying the previous character for the boundary test. -/
def scanCode : Option Char → List Char → Option (Nat × Nat × Nat)
  | _, [] => none
  | prev, c :: rest =>
    if boundaryBefore prev then
      match matchCodeAt (c :: rest) with
      | some v => some v
      | none => scanCode (some c) rest
    else scanCode (some c) rest

/-- `extractDepositCode(text)` from src/index.js: the first
`\b(\d+)-(\d+)-(\d+)\b` match in the memo text, as a numeric triple. -/
def extractDepositCode (text : String) : Option (Nat × Nat × Nat) :=
  scanCode none text.data

/-! ## Wallet helpers (store_wallets accesses) -/

/-- `SELECT balance FROM store_wallets WHERE store_id=$1` (first row, if any). -/
def findWallet (ws : List (Nat × Int)) (sid : Nat) : Option Int :=
  (ws.find? (fun w => w.1 = sid)).map (fun w => w.2)

/-- `UPDATE store_wallets SET balance = f(balance) WHERE store_id=$1`. -/
def updateWallet (ws : List (Nat × Int)) (sid : Nat) (f : Int → Int) :
    List (Nat × Int) :=
  ws.map (fun w => if w.1 = sid then (w.1, f w.2) else w)

/-- `INSERT INTO store_wallets(store_id, balance) VALUES($1,$2)
ON CONFLICT(store_id) DO UPDATE SET balance = store_wallets.balance +
EXCLUDED.balance` from applyTopupPaid. -/
def upsertWallet (ws : List (Nat × Int)) (sid : Nat) (amt : Int) :
    List (Nat × Int) :=
  if ws.any (fun w => w.1 = sid) then updateWallet ws sid (fun b => b + amt)
  else ws ++ [(sid, amt)]

/-- Wallet balance as the API reports it: 0 when no row exists. -/
def walletBalance (db : DB) (sid : Nat) : Int :=
  (findWallet db.wallets sid).getD 0

/-- Sum of the signed ledger amounts recorded for one store. -/
def ledgerSum (l : List LedgerEntry) (sid : Nat) : Int :=
  ((l.filter (fun e => e.store_id = sid)).map (fun e => e.amount)).sum

/-- The invariant of §3: every store's cached wallet balance equals the sum
of its ledger amounts. -/
def WalletInv (db : DB) : Prop :=
  ∀ sid, walletBalance db sid = ledgerSum db.ledger sid

/-! ## applyTopupPaid -/

/-- Result of `applyTopupPaid`, mirroring the four return shapes of the JS
function.  `paidOk` carries the post-commit wallet row the function re-reads
and returns; `alreadyPaid` carries no wallet data, exactly as the code's
already-approved branch returns none. -/
inductive TopupResult where
  | notFound
  | alreadyPaid (topupId storeId : Nat)
  | invalidState (status : String)
  | paidOk (topupId storeId : Nat) (wallet : Option (Nat × Int))
deriving DecidableEq, Repr

/-- Whether the JS result object has `ok: true`. -/
def TopupResult.isOk : TopupResult → Bool
  | .notFound => false
  | .invalidState _ => false
  | .alreadyPaid _ _ => true
  | .paidOk _ _ _ => true

/-- The wallet snapshot carried by the result, if any. -/
def TopupResult.wallet : TopupResult → Option (Nat × Int)
  | .paidOk _ _ w => w
  | _ => none

/-- `applyTopupPaid({topupId, memo, refType})` from src/index.js: one
transaction that locks the topup row, is a no-op if it is already paid,
rejects other non-requested states, and otherwise marks it paid, upserts the
wallet credit and appends a CHARGE ledger entry. -/
def applyTopupPaid (db : DB) (topupId : Nat) (memo refType : String) :
    TopupResult × DB :=
  match db.topups.find? (fun t => t.id = topupId) with
  | none => (.notFound, db)
  | some topup =>
    if topup.status = "paid" then (.alreadyPaid topupId topup.store_id, db)
    else if topup.status ≠ "requested" then (.invalidState topup.status, db)
    else
      let topups' := db.topups.map
        (fun t => if t.id = topupId then { t with status := "paid" } else t)
      let wallets' := upsertWallet db.wallets topup.store_id topup.amount
      let entry : LedgerEntry :=
        { store_id := topup.store_id, type := "CHARGE", amount := topup.amount,
          ref_type := refType, ref_id := topupId, memo := memo }
      let db' := { db with topups := topups', wallets := wallets',
                           ledger := db.ledger ++ [entry] }
      (.paidOk topupId topup.store_id
        (db'.wallets.find? (fun w => w.1 = topup.store_id)), db')

/-! ## POST /orders (placeOrder) -/

/-- One requested order line `{productId, qty}`. -/
structure Item where
  productId : Nat
  qty : Int
deriving DecidableEq, Repr

/-- Catalog price of a product scoped to a head office: the
`WHERE id = ANY($1) AND head_office_id = $2` lookup feeding the price map. -/
def priceOf (db : DB) (hoid pid : Nat) : Option Int :=
  (db.products.find? (fun p => p.id = pid && p.head_office_id = hoid)).map
    (fun p => p.price)

/-- The pricing loop of POST /orders: attach the catalog price to each line
in order, failing with the first product id absent from the head office's
catalog (the 상품 불일치 / product-mismatch rollback). -/
def priceItems (db : DB) (hoid : Nat) : List Item → Except Nat (List (Item × Int))
  | [] => .ok []
  | it :: rest =>
    match priceOf db hoid it.productId with
    | none => .error it.productId
    | some p =>
      match priceItems db hoid rest with
      | .error e => .error e
      | .ok ps => .ok ((it, p) :: ps)

/-- `total = Σ price * qty` over the priced lines. -/
def lineTotals (ps : List (Item × Int)) : Int :=
  (ps.map (fun x => x.2 * x.1.qty)).sum

/-- Result of POST /orders, mirroring the handler's response shapes;
`insufficientFunds` carries the response's `needed` field. -/
inductive OrderResult where
  | badRequest
  | storeNotFound
  | productMismatch (productId : Nat)
  | insufficientFunds (needed : Int)
  | ok (orderId : Nat)
deriving DecidableEq, Repr

/-- POST /orders from src/index.js: one transaction that resolves the store's
head office, prices every line against that head office's catalog, locks the
wallet row (inserting a zero row when absent), aborts with the shortfall when
the balance is too small, and otherwise debits the wallet, inserts the order
and its items, and appends the ORDER_DEBIT ledger entry. -/
def placeOrder (db : DB) (storeId : Nat) (items : List Item) :
    OrderResult × DB :=
  if storeId = 0 ∨ items = [] then (.badRequest, db)
  else
    match db.stores.find? (fun s => s.1 = storeId) with
    | none => (.storeNotFound, db)
    | some st =>
      match priceItems db st.2 items with
      | .error pid => (.productMismatch pid, db)
      | .ok priced =>
        let total := lineTotals priced
        let balance := (findWallet db.wallets storeId).getD 0
        if balance < total then (.insufficientFunds (total - balance), db)
        else
          let wallets₀ :=
            if (findWallet db.wallets storeId).isNone
            then db.wallets ++ [(storeId, 0)] else db.wallets
          let oid := db.next_order_id
          let db' :=
            { db with
              wallets := updateWallet wallets₀ storeId (fun b => b - total),
              orders := db.orders ++
                [{ id := oid, store_id := storeId, head_office_id := st.2,
                   status := "pending", total_amount := total }],
              order_items := db.order_items ++ priced.map
                (fun x => { order_id := oid, product_id := x.1.productId,
                            qty := x.1.qty, unit_price := x.2,
                            line_total := x.2 * x.1.qty }),
              ledger := db.ledger ++
                [{ store_id := storeId, type := "ORDER_DEBIT", amount := -total,
                   ref_type := "ORDER", ref_id := oid, memo := "발주 결제 차감" }],
              next_order_id := oid + 1 }
          (.ok oid, db')

/-! ## POST /admin/bank/mock-incoming (ingestBankTransaction) -/

/-- Result of the bank-ingestion handler, mirroring its response shapes. -/
inductive IngestResult where
  | badRequest
  | duplicate
  | unmatchedParse
  | unmatchedCode (depositCode : String)
  | applied (r : TopupResult)
deriving DecidableEq, Repr

/-- POST /admin/bank/mock-incoming from src/index.js.  Note the handler runs
on the pool with no surrounding transaction: the dedup row insert into
bank_incoming_processed is its own statement, and the credit runs inside
applyTopupPaid's own transaction afterwards. -/
def ingestBank (db : DB) (txId : String) (amount : Int)
    (memo depositor occurredAt : Option String) : IngestResult × DB :=
  if txId = "" ∨ amount = 0 then (.badRequest, db)
  else if db.bank_processed.any (fun b => b.tx_id = txId) then (.duplicate, db)
  else
    match extractDepositCode ((memo.getD "")) with
    | none =>
      (.unmatchedParse,
        { db with bank_processed := db.bank_processed ++
            [{ tx_id := txId, amount := amount, depositor := depositor,
               memo := memo, occurred_at := occurredAt,
               matched_topup_id := none, matched_store_id := none }] })
    | some (h, s, t) =>
      let depositCode := makeDepositCode h s t
      match db.topups.find? (fun tp => tp.deposit_code = some depositCode) with
      | none =>
        (.unmatchedCode depositCode,
          { db with bank_processed := db.bank_processed ++
              [{ tx_id := txId, amount := amount, depositor := depositor,
                 memo := memo, occurred_at := occurredAt,
                 matched_topup_id := none, matched_store_id := none }] })
      | some tp =>
        let db₁ := { db with bank_processed := db.bank_processed ++
            [{ tx_id := txId, amount := amount, depositor := depositor,
               memo := memo, occurred_at := occurredAt,
               matched_topup_id := some tp.id,
               matched_store_id := some tp.store_id }] }
        let r := applyTopupPaid db₁ tp.id "KB 자동입금 확인 충전" "BANK"
        (.applied r.1, r.2)

/-! ## Lemmas about decimal rendering and the deposit-code scanner -/

theorem digitChar_isDigit {d : Nat} (h : d < 10) : (digitChar d).isDigit = true := by
  interval_cases d <;> decide

theorem digitVal_digitChar {d : Nat} (h : d < 10) : digitVal (digitChar d) = d := by
  interval_cases d <;> decide

theorem toDecimalAux_digits :
    ∀ fuel n, n < fuel → ∀ c ∈ toDecimalAux fuel n, c.isDigit = true := by
  intro fuel
  induction fuel with
  | zero => intro n hn; omega
  | succ f ih =>
    intro n hn c hc
    by_cases h10 : n < 10
    · simp only [toDecimalAux, if_pos h10, List.mem_singleton] at hc
      exact hc ▸ digitChar_isDigit h10
    · simp only [toDecimalAux, if_neg h10, List.mem_append, List.mem_singleton] at hc
      rcases hc with hc | hc
      · have hlt : n / 10 < n := Nat.div_lt_self (by omega) (by omega)
        exact ih (n / 10) (by omega) c hc
      · exact hc ▸ digitChar_isDigit (Nat.mod_lt _ (by omega))

theorem toDecimalAux_ne_nil :
    ∀ fuel n, n < fuel → toDecimalAux fuel n ≠ [] := by
  intro fuel
  induction fuel with
  | zero => intro n hn; omega
  | succ f _ =>
    intro n _
    by_cases h10 : n < 10 <;> simp [toDecimalAux, h10]

theorem fromDigits_append_single (xs : List Char) (c : Char) :
    fromDigits (xs ++ [c]) = fromDigits xs * 10 + digitVal c := by
  simp [fromDigits, List.foldl_append]

theorem fromDigits_toDecimalAux :
    ∀ fuel n, n < fuel → fromDigits (toDecimalAux fuel n) = n := by
  intro fuel
  induction fuel with
  | zero => intro n hn; omega
  | succ f ih =>
    intro n hn
    by_cases h10 : n < 10
    · simp only [toDecimalAux, if_pos h10]
      show fromDigits ([] ++ [digitChar n]) = n
      rw [fromDigits_append_single]
      simp [fromDigits, digitVal_digitChar h10]
    · have hlt : n / 10 < n := Nat.div_lt_self (by omega) (by omega)
      simp only [toDecimalAux, if_neg h10]
      rw [fromDigits_append_single, ih (n / 10) (by omega),
        digitVal_digitChar (Nat.mod_lt _ (by omega))]
      omega

theorem toDecimal_digits {n : Nat} : ∀ c ∈ toDecimal n, c.isDigit = true :=
  toDecimalAux_digits (n + 1) n (Nat.lt_succ_self n)

theorem toDecimal_ne_nil {n : Nat} : toDecimal n ≠ [] :=
  toDecimalAux_ne_nil (n + 1) n (Nat.lt_succ_self n)

theorem fromDigits_toDecimal (n : Nat) : fromDigits (toDecimal n) = n :=
  fromDigits_toDecimalAux (n + 1) n (Nat.lt_succ_self n)

theorem takeDigits_digits_append (ds rest : List Char)
    (hds : ∀ c ∈ ds, c.isDigit = true)
    (hr : ∀ c, rest.head? = some c → c.isDigit = false) :
    takeDigits (ds ++ rest) = (ds, rest) := by
  induction ds with
  | nil =>
    cases rest with
    | nil => rfl
    | cons c r =>
      have : c.isDigit = false := hr c rfl
      simp [takeDigits, this]
  | cons d ds ih =>
    have hd : d.isDigit = true := hds d (List.mem_cons_self d ds)
    have ihr := ih (fun c hc => hds c (List.mem_cons_of_mem d hc))
    simp [takeDigits, hd, ihr]

theorem takeDigits_all_digits (ds : List Char)
    (hds : ∀ c ∈ ds, c.isDigit = true) : takeDigits ds = (ds, []) := by
  have := takeDigits_digits_append ds [] hds (by intro c hc; simp at hc)
  simpa using this

theorem matchCodeAt_make (h s t : Nat) :
    matchCodeAt (toDecimal h ++ '-' :: (toDecimal s ++ '-' :: toDecimal t)) =
      some (h, s, t) := by
  have h1 := takeDigits_digits_append (toDecimal h)
    ('-' :: (toDecimal s ++ '-' :: toDecimal t)) toDecimal_digits
    (by intro c hc; simp at hc; subst hc; decide)
  have h2 := takeDigits_digits_append (toDecimal s)
    ('-' :: toDecimal t) toDecimal_digits
    (by intro c hc; simp at hc; subst hc; decide)
  have h3 := takeDigits_all_digits (toDecimal t) toDecimal_digits
  simp only [matchCodeAt, h1, h2, h3]
  simp [toDecimal_ne_nil, fromDigits_toDecimal]

theorem extract_make (h s t : Nat) :
    extractDepositCode (makeDepositCode h s t) = some (h, s, t) := by
  unfold extractDepositCode makeDepositCode
  obtain ⟨c, cs, hcs⟩ := List.exists_cons_of_ne_nil (toDecimal_ne_nil (n := h))
  show scanCode none (toDecimal h ++ '-' :: (toDecimal s ++ '-' :: toDecimal t)) =
    some (h, s, t)
  rw [hcs, List.cons_append]
  have hm : matchCodeAt (c :: (cs ++ '-' :: (toDecimal s ++ '-' :: toDecimal t))) =
      some (h, s, t) := by
    rw [← List.cons_append, ← hcs]; exact matchCodeAt_make h s t
  simp [scanCode, boundaryBefore, hm]

theorem make_inj_topup {h s t h' s' t' : Nat}
    (heq : makeDepositCode h s t = makeDepositCode h' s' t') : t = t' := by
  have hdata : toDecimal h ++ '-' :: (toDecimal s ++ '-' :: toDecimal t) =
      toDecimal h' ++ '-' :: (toDecimal s' ++ '-' :: toDecimal t') :=
    congrArg String.data heq
  have hrev := congrArg List.reverse hdata
  simp only [List.reverse_append, List.reverse_cons, List.append_assoc,
    List.singleton_append, List.nil_append] at hrev
  have hrd : ∀ n : Nat, ∀ c ∈ (toDecimal n).reverse, c.isDigit = true := by
    intro n c hc; exact toDecimal_digits c (List.mem_reverse.mp hc)
  have e1 := takeDigits_digits_append (toDecimal t).reverse
    ('-' :: ((toDecimal s).reverse ++ '-' :: (toDecimal h).reverse)) (hrd t)
    (by intro c hc; simp at hc; subst hc; decide)
  have e2 := takeDigits_digits_append (toDecimal t').reverse
    ('-' :: ((toDecimal s').reverse ++ '-' :: (toDecimal h').reverse)) (hrd t')
    (by intro c hc; simp at hc; subst hc; decide)
  have hrt : (toDecimal t).reverse = (toDecimal t').reverse := by
    have hfst := congrArg (fun l => (takeDigits l).1) hrev
    simpa [e1, e2] using hfst
  have hdec : toDecimal t = toDecimal t' := by
    have := congrArg List.reverse hrt
    simpa using this
  calc t = fromDigits (toDecimal t) := (fromDigits_toDecimal t).symm
    _ = fromDigits (toDecimal t') := by rw [hdec]
    _ = t' := fromDigits_toDecimal t'

/-! ## Lemmas about wallet and ledger table operations -/

theorem find?_update_self (ws : List (Nat × Int)) (sid : Nat) (f : Int → Int) :
    (updateWallet ws sid f).find? (fun w => w.1 = sid) =
      ((ws.find? (fun w => w.1 = sid)).map (fun w => (sid, f w.2))) := by
  induction ws with
  | nil => rfl
  | cons a ws ih =>
    by_cases ha : a.1 = sid
    · simp [updateWallet, List.find?, ha]
    · simp only [updateWallet, List.map_cons, if_neg ha] at *
      rw [List.find?_cons_of_neg _ (by simpa using ha),
        List.find?_cons_of_neg _ (by simpa using ha)]
      exact ih

theorem find?_update_other (ws : List (Nat × Int)) (sid sid' : Nat)
    (f : Int → Int) (h : sid' ≠ sid) :
    (updateWallet ws sid f).find? (fun w => w.1 = sid') =
      ws.find? (fun w => w.1 = sid') := by
  induction ws with
  | nil => rfl
  | cons a ws ih =>
    by_cases ha : a.1 = sid
    · have ha' : ¬ a.1 = sid' := by omega
      simp only [updateWallet, List.map_cons, if_pos ha]
      rw [List.find?_cons_of_neg _ (by simpa using ha'),
        List.find?_cons_of_neg _ (by simpa using ha')]
      exact ih
    · by_cases hb : a.1 = sid'
      · simp only [updateWallet, List.map_cons, if_neg ha]
        rw [List.find?_cons_of_pos _ (by simpa using hb),
          List.find?_cons_of_pos _ (by simpa using hb)]
      · simp only [updateWallet, List.map_cons, if_neg ha]
        rw [List.find?_cons_of_neg _ (by simpa using hb),
          List.find?_cons_of_neg _ (by simpa using hb)]
        exact ih

theorem find?_append_none (ws l : List (Nat × Int)) (sid : Nat)
    (h : ws.find? (fun w => w.1 = sid) = none) :
    (ws ++ l).find? (fun w => w.1 = sid) = l.find? (fun w => w.1 = sid) := by
  induction ws with
  | nil => rfl
  | cons a ws ih =>
    by_cases ha : a.1 = sid
    · rw [List.find?_cons_of_pos _ (by simpa using ha)] at h; cases h
    · rw [List.find?_cons_of_neg _ (by simpa using ha)] at h
      rw [List.cons_append, List.find?_cons_of_neg _ (by simpa using ha)]
      exact ih h

theorem find?_append_some (ws l : List (Nat × Int)) (sid : Nat) (w : Nat × Int)
    (h : ws.find? (fun w => w.1 = sid) = some w) :
    (ws ++ l).find? (fun w => w.1 = sid) = some w := by
  induction ws with
  | nil => cases h
  | cons a ws ih =>
    by_cases ha : a.1 = sid
    · rw [List.find?_cons_of_pos _ (by simpa using ha)] at h
      rw [List.cons_append, List.find?_cons_of_pos _ (by simpa using ha)]
      exact h
    · rw [List.find?_cons_of_neg _ (by simpa using ha)] at h
      rw [List.cons_append, List.find?_cons_of_neg _ (by simpa using ha)]
      exact ih h

theorem findWallet_update_self (ws : List (Nat × Int)) (sid : Nat) (f : Int → Int) :
    findWallet (updateWallet ws sid f) sid = (findWallet ws sid).map f := by
  unfold findWallet
  rw [find?_update_self]
  cases ws.find? (fun w => w.1 = sid) <;> rfl

theorem findWallet_update_other (ws : List (Nat × Int)) (sid sid' : Nat)
    (f : Int → Int) (h : sid' ≠ sid) :
    findWallet (updateWallet ws sid f) sid' = findWallet ws sid' := by
  simp [findWallet, find?_update_other ws sid sid' f h]

theorem any_iff_find?_wallet (ws : List (Nat × Int)) (sid : Nat) :
    ws.any (fun w => w.1 = sid) = true ↔
      ∃ w, ws.find? (fun w => w.1 = sid) = some w := by
  rw [List.any_eq_true]
  constructor
  · rintro ⟨w, hw, hp⟩
    have : (ws.find? (fun w => w.1 = sid)).isSome := by
      rw [List.find?_isSome]; exact ⟨w, hw, hp⟩
    exact Option.isSome_iff_exists.mp this
  · rintro ⟨w, hw⟩
    have hs : (ws.find? (fun w => decide (w.1 = sid))).isSome := by
      rw [hw]; rfl
    rw [List.find?_isSome] at hs
    obtain ⟨x, hx, hp⟩ := hs
    exact ⟨x, hx, hp⟩

theorem find?_upsert_self (ws : List (Nat × Int)) (sid : Nat) (amt : Int) :
    (upsertWallet ws sid amt).find? (fun w => w.1 = sid) =
      some (sid, (findWallet ws sid).getD 0 + amt) := by
  unfold upsertWallet
  by_cases hany : ws.any (fun w => w.1 = sid) = true
  · obtain ⟨w, hw⟩ := (any_iff_find?_wallet ws sid).mp hany
    rw [if_pos hany, find?_update_self, hw]
    simp [findWallet, hw]
  · rw [if_neg hany]
    have hnone : ws.find? (fun w => w.1 = sid) = none := by
      cases hfind : ws.find? (fun w => w.1 = sid) with
      | none => rfl
      | some w => exact absurd ((any_iff_find?_wallet ws sid).mpr ⟨w, hfind⟩) hany
    rw [find?_append_none ws _ sid hnone]
    simp [findWallet, hnone, List.find?]

theorem find?_upsert_other (ws : List (Nat × Int)) (sid sid' : Nat) (amt : Int)
    (h : sid' ≠ sid) :
    (upsertWallet ws sid amt).find? (fun w => w.1 = sid') =
      ws.find? (fun w => w.1 = sid') := by
  unfold upsertWallet
  by_cases hany : ws.any (fun w => w.1 = sid) = true
  · rw [if_pos hany]; exact find?_update_other ws sid sid' _ h
  · rw [if_neg hany]
    cases hfind : ws.find? (fun w => w.1 = sid') with
    | none =>
      rw [find?_append_none ws _ sid' hfind]
      have h2 : sid ≠ sid' := Ne.symm h
      simp [List.find?, h2]
    | some w => exact find?_append_some ws _ sid' w hfind

theorem ledgerSum_append (l l₂ : List LedgerEntry) (sid : Nat) :
    ledgerSum (l ++ l₂) sid = ledgerSum l sid + ledgerSum l₂ sid := by
  simp [ledgerSum, List.filter_append]

theorem ledgerSum_single (e : LedgerEntry) (sid : Nat) :
    ledgerSum [e] sid = if e.store_id = sid then e.amount else 0 := by
  by_cases h : e.store_id = sid <;> simp [ledgerSum, List.filter, h]

/-! ## Characterizations of applyTopupPaid -/

theorem find?_topup_update (l : List Topup) (tid : Nat) (tp : Topup) (s : String)
    (h : l.find? (fun t => t.id = tid) = some tp) :
    (l.map (fun t => if t.id = tid then { t with status := s } else t)).find?
      (fun t => t.id = tid) = some { tp with status := s } := by
  induction l with
  | nil => cases h
  | cons a l ih =>
    by_cases ha : a.id = tid
    · rw [List.find?_cons_of_pos _ (by simpa using ha)] at h
      injection h with h
      subst h
      simp only [List.map_cons, if_pos ha]
      rw [List.find?_cons_of_pos _ (by simpa using ha)]
    · rw [List.find?_cons_of_neg _ (by simpa using ha)] at h
      simp only [List.map_cons, if_neg ha]
      rw [List.find?_cons_of_neg _ (by simpa using ha)]
      exact ih h

theorem findWallet_upsert_self (ws : List (Nat × Int)) (sid : Nat) (amt : Int) :
    findWallet (upsertWallet ws sid amt) sid =
      some ((findWallet ws sid).getD 0 + amt) := by
  unfold findWallet
  rw [find?_upsert_self]
  rfl

theorem findWallet_upsert_other (ws : List (Nat × Int)) (sid sid' : Nat)
    (amt : Int) (h : sid' ≠ sid) :
    findWallet (upsertWallet ws sid amt) sid' = findWallet ws sid' := by
  unfold findWallet
  rw [find?_upsert_other ws sid sid' amt h]

theorem applyTopupPaid_notFound (db : DB) (tid : Nat) (m rt : String)
    (h : db.topups.find? (fun t => t.id = tid) = none) :
    applyTopupPaid db tid m rt = (.notFound, db) := by
  simp [applyTopupPaid, h]

theorem applyTopupPaid_paid (db : DB) (tid : Nat) (m rt : String) (tp : Topup)
    (h : db.topups.find? (fun t => t.id = tid) = some tp)
    (hp : tp.status = "paid") :
    applyTopupPaid db tid m rt = (.alreadyPaid tid tp.store_id, db) := by
  simp [applyTopupPaid, h, hp]

theorem applyTopupPaid_invalid (db : DB) (tid : Nat) (m rt : String) (tp : Topup)
    (h : db.topups.find? (fun t => t.id = tid) = some tp)
    (hp : tp.status ≠ "paid") (hr : tp.status ≠ "requested") :
    applyTopupPaid db tid m rt = (.invalidState tp.status, db) := by
  simp [applyTopupPaid, h, hp, hr]

theorem applyTopupPaid_requested (db : DB) (tid : Nat) (m rt : String) (tp : Topup)
    (h : db.topups.find? (fun t => t.id = tid) = some tp)
    (hr : tp.status = "requested") :
    applyTopupPaid db tid m rt =
      (.paidOk tid tp.store_id
        (some (tp.store_id, (findWallet db.wallets tp.store_id).getD 0 + tp.amount)),
       { db with
         topups := db.topups.map
           (fun t => if t.id = tid then { t with status := "paid" } else t),
         wallets := upsertWallet db.wallets tp.store_id tp.amount,
         ledger := db.ledger ++
           [{ store_id := tp.store_id, type := "CHARGE", amount := tp.amount,
              ref_type := rt, ref_id := tid, memo := m }] }) := by
  have hne : tp.status ≠ "paid" := by rw [hr]; decide
  simp [applyTopupPaid, h, hne, hr, find?_upsert_self, findWallet]

theorem applyTopupPaid_cases (db : DB) (tid : Nat) (m rt : String) :
    (applyTopupPaid db tid m rt).2 = db ∨
    ∃ tp, db.topups.find? (fun t => t.id = tid) = some tp ∧
      tp.status = "requested" ∧
      applyTopupPaid db tid m rt =
        (.paidOk tid tp.store_id
          (some (tp.store_id,
            (findWallet db.wallets tp.store_id).getD 0 + tp.amount)),
         { db with
           topups := db.topups.map
             (fun t => if t.id = tid then { t with status := "paid" } else t),
           wallets := upsertWallet db.wallets tp.store_id tp.amount,
           ledger := db.ledger ++
             [{ store_id := tp.store_id, type := "CHARGE", amount := tp.amount,
                ref_type := rt, ref_id := tid, memo := m }] }) := by
  rcases hfind : db.topups.find? (fun t => t.id = tid) with _ | tp
  · left; rw [applyTopupPaid_notFound db tid m rt hfind]
  · by_cases hp : tp.status = "paid"
    · left; rw [applyTopupPaid_paid db tid m rt tp hfind hp]
    · by_cases hr : tp.status = "requested"
      · right
        exact ⟨tp, hfind, hr, applyTopupPaid_requested db tid m rt tp hfind hr⟩
      · left; rw [applyTopupPaid_invalid db tid m rt tp hfind hp hr]

theorem applyTopupPaid_frame (db : DB) (tid : Nat) (m rt : String) :
    (applyTopupPaid db tid m rt).2.stores = db.stores ∧
    (applyTopupPaid db tid m rt).2.products = db.products ∧
    (applyTopupPaid db tid m rt).2.orders = db.orders ∧
    (applyTopupPaid db tid m rt).2.order_items = db.order_items ∧
    (applyTopupPaid db tid m rt).2.bank_processed = db.bank_processed ∧
    (applyTopupPaid db tid m rt).2.next_order_id = db.next_order_id := by
  rcases applyTopupPaid_cases db tid m rt with hsame | ⟨tp, _, _, heq⟩
  · rw [hsame]; exact ⟨rfl, rfl, rfl, rfl, rfl, rfl⟩
  · rw [heq]; exact ⟨rfl, rfl, rfl, rfl, rfl, rfl⟩

theorem applyTopupPaid_not_ok_eq (db : DB) (tid : Nat) (m rt : String)
    (h : (applyTopupPaid db tid m rt).1.isOk = false) :
    (applyTopupPaid db tid m rt).2 = db := by
  rcases applyTopupPaid_cases db tid m rt with hsame | ⟨tp, _, _, heq⟩
  · exact hsame
  · rw [heq] at h; cases h

theorem applyTopupPaid_not_paidOk_eq (db : DB) (tid : Nat) (m rt : String)
    (h : ∀ x y w, (applyTopupPaid db tid m rt).1 ≠ .paidOk x y w) :
    (applyTopupPaid db tid m rt).2 = db := by
  rcases applyTopupPaid_cases db tid m rt with hsame | ⟨tp, _, _, heq⟩
  · exact hsame
  · exact absurd (by rw [heq]) (h tid tp.store_id _)

theorem walletInv_applyTopupPaid (db : DB) (tid : Nat) (m rt : String)
    (hinv : WalletInv db) : WalletInv (applyTopupPaid db tid m rt).2 := by
  rcases applyTopupPaid_cases db tid m rt with hsame | ⟨tp, _, _, heq⟩
  · rw [hsame]; exact hinv
  · rw [heq]
    intro sid
    unfold walletBalance
    show (findWallet (upsertWallet db.wallets tp.store_id tp.amount) sid).getD 0 =
      ledgerSum (db.ledger ++
        [{ store_id := tp.store_id, type := "CHARGE", amount := tp.amount,
           ref_type := rt, ref_id := tid, memo := m }]) sid
    rw [ledgerSum_append, ledgerSum_single]
    by_cases hsid : sid = tp.store_id
    · subst hsid
      rw [findWallet_upsert_self]
      have := hinv tp.store_id
      unfold walletBalance at this
      simp [this]
    · rw [findWallet_upsert_other db.wallets tp.store_id sid tp.amount hsid]
      have := hinv sid
      unfold walletBalance at this
      have hne : ¬ tp.store_id = sid := fun e => hsid e.symm
      simp [this, hne]

/-! ## Characterizations of placeOrder -/

theorem priceItems_ok_spec (db : DB) (hoid : Nat) :
    ∀ items priced, priceItems db hoid items = .ok priced →
      priced.map Prod.fst = items ∧
      ∀ x ∈ priced, priceOf db hoid x.1.productId = some x.2 := by
  intro items
  induction items with
  | nil =>
    intro priced h
    simp only [priceItems] at h
    injection h with h
    subst h
    simp
  | cons it rest ih =>
    intro priced h
    simp only [priceItems] at h
    rcases hp : priceOf db hoid it.productId with _ | p
    · rw [hp] at h; cases h
    · rw [hp] at h
      rcases hr : priceItems db hoid rest with e | ps
      · rw [hr] at h; cases h
      · rw [hr] at h
        injection h with h
        subst h
        obtain ⟨ih1, ih2⟩ := ih ps hr
        refine ⟨by simp [ih1], ?_⟩
        intro x hx
        rcases List.mem_cons.mp hx with hx | hx
        · subst hx; exact hp
        · exact ih2 x hx

theorem priceItems_error_of_missing (db : DB) (hoid : Nat) :
    ∀ items, (∃ it ∈ items, priceOf db hoid it.productId = none) →
      ∃ pid, priceItems db hoid items = .error pid ∧
        priceOf db hoid pid = none ∧ pid ∈ items.map Item.productId := by
  intro items
  induction items with
  | nil => rintro ⟨it, hit, _⟩; cases hit
  | cons it rest ih =>
    rintro ⟨x, hx, hmiss⟩
    rcases hp : priceOf db hoid it.productId with _ | p
    · exact ⟨it.productId, by simp [priceItems, hp], hp, by simp⟩
    · have hxr : x ∈ rest := by
        rcases List.mem_cons.mp hx with he | hr
        · subst he; rw [hp] at hmiss; cases hmiss
        · exact hr
      obtain ⟨pid, hperr, hpnone, hpmem⟩ := ih ⟨x, hxr, hmiss⟩
      exact ⟨pid, by simp [priceItems, hp, hperr], hpnone, by simp [hpmem]⟩

theorem placeOrder_eq_ok (db : DB) (sid : Nat) (items : List Item) (oid : Nat)
    (db' : DB) (h : placeOrder db sid items = (.ok oid, db')) :
    ∃ st priced,
      db.stores.find? (fun s => s.1 = sid) = some st ∧
      priceItems db st.2 items = .ok priced ∧
      ¬ ((findWallet db.wallets sid).getD 0 < lineTotals priced) ∧
      oid = db.next_order_id ∧
      db' = { db with
        wallets := updateWallet
          (if (findWallet db.wallets sid).isNone then db.wallets ++ [(sid, 0)]
           else db.wallets) sid (fun b => b - lineTotals priced),
        orders := db.orders ++
          [{ id := oid, store_id := sid, head_office_id := st.2,
             status := "pending", total_amount := lineTotals priced }],
        order_items := db.order_items ++ priced.map
          (fun x => { order_id := oid, product_id := x.1.productId,
                      qty := x.1.qty, unit_price := x.2,
                      line_total := x.2 * x.1.qty }),
        ledger := db.ledger ++
          [{ store_id := sid, type := "ORDER_DEBIT",
             amount := -(lineTotals priced), ref_type := "ORDER",
             ref_id := oid, memo := "발주 결제 차감" }],
        next_order_id := oid + 1 } := by
  by_cases h0 : sid = 0 ∨ items = []
  · simp [placeOrder, h0] at h
  rcases hst : db.stores.find? (fun s => s.1 = sid) with _ | st
  · simp [placeOrder, h0, hst] at h
  rcases hpr : priceItems db st.2 items with pid | priced
  · simp [placeOrder, h0, hst, hpr] at h
  by_cases hbal : (findWallet db.wallets sid).getD 0 < lineTotals priced
  · simp [placeOrder, h0, hst, hpr, hbal] at h
  · simp only [placeOrder, h0, hst, hpr, hbal] at h
    simp only [if_false, if_neg h0, if_neg hbal, Prod.mk.injEq,
      OrderResult.ok.injEq] at h
    obtain ⟨hoid, hdb⟩ := h
    subst hoid
    exact ⟨st, priced, hst, hpr, hbal, rfl, hdb.symm⟩

theorem placeOrder_cases (db : DB) (sid : Nat) (items : List Item) :
    (placeOrder db sid items).2 = db ∨
    ∃ db', placeOrder db sid items = (.ok db.next_order_id, db') := by
  by_cases h0 : sid = 0 ∨ items = []
  · left; simp [placeOrder, h0]
  rcases hst : db.stores.find? (fun s => s.1 = sid) with _ | st
  · left; simp [placeOrder, h0, hst]
  rcases hpr : priceItems db st.2 items with pid | priced
  · left; simp [placeOrder, h0, hst, hpr]
  by_cases hbal : (findWallet db.wallets sid).getD 0 < lineTotals priced
  · left; simp [placeOrder, h0, hst, hpr, hbal]
  · right
    refine ⟨(placeOrder db sid items).2, ?_⟩
    have h1 : (placeOrder db sid items).1 = .ok db.next_order_id := by
      simp [placeOrder, h0, hst, hpr, hbal]
    rw [Prod.ext_iff]
    exact ⟨h1, rfl⟩

theorem placeOrder_fail_eq (db : DB) (sid : Nat) (items : List Item)
    (h : ∀ oid, (placeOrder db sid items).1 ≠ .ok oid) :
    (placeOrder db sid items).2 = db := by
  rcases placeOrder_cases db sid items with hsame | ⟨db', heq⟩
  · exact hsame
  · exact absurd (by rw [heq]) (h db.next_order_id)

theorem placeOrder_frame (db : DB) (sid : Nat) (items : List Item) :
    (placeOrder db sid items).2.stores = db.stores ∧
    (placeOrder db sid items).2.products = db.products ∧
    (placeOrder db sid items).2.topups = db.topups ∧
    (placeOrder db sid items).2.bank_processed = db.bank_processed := by
  rcases placeOrder_cases db sid items with hsame | ⟨db', heq⟩
  · rw [hsame]; exact ⟨rfl, rfl, rfl, rfl⟩
  · obtain ⟨st, priced, _, _, _, _, hdb⟩ :=
      placeOrder_eq_ok db sid items db.next_order_id db' heq
    rw [heq, hdb]
    exact ⟨rfl, rfl, rfl, rfl⟩

theorem findWallet_insert0 (ws : List (Nat × Int)) (sid : Nat) :
    findWallet
      (if (findWallet ws sid).isNone then ws ++ [(sid, 0)] else ws) sid =
      some ((findWallet ws sid).getD 0) := by
  rcases hf : findWallet ws sid with _ | b
  · have hnone : ws.find? (fun w => w.1 = sid) = none := by
      unfold findWallet at hf
      exact Option.map_eq_none'.mp hf
    simp only [hf, Option.isNone_none, if_pos]
    unfold findWallet
    rw [find?_append_none ws _ sid hnone]
    simp [List.find?]
  · simp [hf]

theorem findWallet_insert0_other (ws : List (Nat × Int)) (sid sid' : Nat)
    (h : sid' ≠ sid) :
    findWallet
      (if (findWallet ws sid).isNone then ws ++ [(sid, 0)] else ws) sid' =
      findWallet ws sid' := by
  rcases hf : findWallet ws sid with _ | b
  · simp only [hf, Option.isNone_none, if_pos]
    unfold findWallet
    rcases hfind : ws.find? (fun w => w.1 = sid') with _ | w
    · rw [find?_append_none ws _ sid' hfind, hfind]
      have h2 : sid ≠ sid' := Ne.symm h
      simp [List.find?, h2]
    · rw [find?_append_some ws _ sid' w hfind, hfind]
  · simp [hf]

theorem walletInv_placeOrder (db : DB) (sid : Nat) (items : List Item)
    (hinv : WalletInv db) : WalletInv (placeOrder db sid items).2 := by
  rcases placeOrder_cases db sid items with hsame | ⟨db', heq⟩
  · rw [hsame]; exact hinv
  · obtain ⟨st, priced, _, _, _, _, hdb⟩ :=
      placeOrder_eq_ok db sid items db.next_order_id db' heq
    rw [heq]
    show WalletInv db'
    rw [hdb]
    intro sid'
    unfold walletBalance
    show (findWallet (updateWallet _ sid (fun b => b - lineTotals priced)) sid').getD 0 =
      ledgerSum (db.ledger ++
        [{ store_id := sid, type := "ORDER_DEBIT",
           amount := -(lineTotals priced), ref_type := "ORDER",
           ref_id := db.next_order_id, memo := "발주 결제 차감" }]) sid'
    rw [ledgerSum_append, ledgerSum_single]
    by_cases hsid : sid' = sid
    · subst hsid
      rw [findWallet_update_self, findWallet_insert0]
      have := hinv sid'
      unfold walletBalance at this
      simp [this, sub_eq_add_neg]
    · rw [findWallet_update_other _ sid sid' _ hsid,
        findWallet_insert0_other _ sid sid' hsid]
      have := hinv sid'
      unfold walletBalance at this
      have hne : ¬ sid = sid' := fun e => hsid e.symm
      simp [this, hne]

/-! ## Characterizations of ingestBank -/

theorem ingestBank_dup (db : DB) (txId : String) (amount : Int)
    (memo dep occ : Option String) (h0 : ¬ (txId = "" ∨ amount = 0))
    (hdup : db.bank_processed.any (fun b => b.tx_id = txId) = true) :
    ingestBank db txId amount memo dep occ = (.duplicate, db) := by
  unfold ingestBank
  rw [if_neg h0, if_pos hdup]

theorem ingestBank_records (db : DB) (txId : String) (amount : Int)
    (memo dep occ : Option String) (h1 : txId ≠ "") (h2 : amount ≠ 0) :
    ((ingestBank db txId amount memo dep occ).2.bank_processed.any
      (fun b => b.tx_id = txId)) = true := by
  have h0 : ¬ (txId = "" ∨ amount = 0) := by
    rintro (he | he)
    · exact h1 he
    · exact h2 he
  by_cases hdup : db.bank_processed.any (fun b => b.tx_id = txId) = true
  · rw [ingestBank_dup db txId amount memo dep occ h0 hdup]
    exact hdup
  unfold ingestBank
  rw [if_neg h0, if_neg hdup]
  rcases hext : extractDepositCode (memo.getD "") with _ | trip
  · simp
  obtain ⟨h, s, t⟩ := trip
  simp only
  rcases hfind : db.topups.find?
      (fun tp => tp.deposit_code = some (makeDepositCode h s t)) with _ | tp
  · simp [hfind]
  simp only [hfind]
  have hframe := applyTopupPaid_frame
    { db with bank_processed := db.bank_processed ++
        [{ tx_id := txId, amount := amount, depositor := dep, memo := memo,
           occurred_at := occ, matched_topup_id := some tp.id,
           matched_store_id := some tp.store_id }] }
    tp.id "KB 자동입금 확인 충전" "BANK"
  rw [hframe.2.2.2.2.1]
  simp

theorem ingestBank_state_shape (db : DB) (txId : String) (amount : Int)
    (memo dep occ : Option String) :
    (ingestBank db txId amount memo dep occ).2 = db ∨
    (∃ X, (ingestBank db txId amount memo dep occ).2 =
      { db with bank_processed := X }) ∨
    (∃ tid X, (ingestBank db txId amount memo dep occ).2 =
      (applyTopupPaid { db with bank_processed := X } tid
        "KB 자동입금 확인 충전" "BANK").2) := by
  unfold ingestBank
  by_cases h0 : txId = "" ∨ amount = 0
  · left; rw [if_pos h0]
  rw [if_neg h0]
  by_cases hdup : db.bank_processed.any (fun b => b.tx_id = txId) = true
  · left; rw [if_pos hdup]
  rw [if_neg hdup]
  rcases hext : extractDepositCode (memo.getD "") with _ | trip
  · right; left; exact ⟨_, rfl⟩
  obtain ⟨h, s, t⟩ := trip
  simp only
  rcases hfind : db.topups.find?
      (fun tp => tp.deposit_code = some (makeDepositCode h s t)) with _ | tp
  · simp only [hfind]
    right; left; exact ⟨_, rfl⟩
  · simp only [hfind]
    right; right; exact ⟨tp.id, _, rfl⟩

theorem walletInv_ingestBank (db : DB) (txId : String) (amount : Int)
    (memo dep occ : Option String) (hinv : WalletInv db) :
    WalletInv (ingestBank db txId amount memo dep occ).2 := by
  rcases ingestBank_state_shape db txId amount memo dep occ with
    hsame | ⟨X, hX⟩ | ⟨tid, X, hX⟩
  · rw [hsame]; exact hinv
  · rw [hX]; intro sid; exact hinv sid
  · rw [hX]
    exact walletInv_applyTopupPaid _ tid _ _ (fun sid => hinv sid)

/-! ## Derived facts used by several claims -/

/-- Number of CHARGE ledger entries referencing one top-up id. -/
def countCharge (l : List LedgerEntry) (tid : Nat) : Nat :=
  (l.filter (fun e => e.type = "CHARGE" && e.ref_id = tid)).length

theorem countCharge_append (l l₂ : List LedgerEntry) (tid : Nat) :
    countCharge (l ++ l₂) tid = countCharge l tid + countCharge l₂ tid := by
  simp [countCharge, List.filter_append]

theorem placeOrder_ok_wallet (db : DB) (sid : Nat) (items : List Item)
    (oid : Nat) (db' : DB) (h : placeOrder db sid items = (.ok oid, db')) :
    ∃ st priced,
      db.stores.find? (fun s => s.1 = sid) = some st ∧
      priceItems db st.2 items = .ok priced ∧
      walletBalance db' sid = walletBalance db sid - lineTotals priced ∧
      lineTotals priced ≤ walletBalance db sid ∧
      db'.ledger = db.ledger ++
        [{ store_id := sid, type := "ORDER_DEBIT",
           amount := -(lineTotals priced), ref_type := "ORDER",
           ref_id := oid, memo := "발주 결제 차감" }] := by
  obtain ⟨st, priced, hst, hpr, hbal, hoid, hdb⟩ :=
    placeOrder_eq_ok db sid items oid db' h
  refine ⟨st, priced, hst, hpr, ?_, ?_, ?_⟩
  · rw [hdb]
    unfold walletBalance
    show (findWallet (updateWallet _ sid (fun b => b - lineTotals priced)) sid).getD 0 = _
    rw [findWallet_update_self, findWallet_insert0]
    rfl
  · unfold walletBalance
    omega
  · rw [hdb]

/-- Products of two DB states agree, so order pricing agrees. -/
theorem priceOf_congr (db db' : DB) (hoid pid : Nat)
    (h : db'.products = db.products) :
    priceOf db' hoid pid = priceOf db hoid pid := by
  simp [priceOf, h]

theorem priceItems_congr (db db' : DB) (hoid : Nat)
    (h : db'.products = db.products) :
    ∀ items, priceItems db' hoid items = priceItems db hoid items := by
  intro items
  induction items with
  | nil => rfl
  | cons it rest ih =>
    simp [priceItems, priceOf_congr db db' hoid it.productId h, ih]

/-! ## Claims -/

/-- C1: after every placeOrder, applyTopupPaid or ingestBankTransaction call,
every store's wallet balance equals the sum of the signed amounts of the
ledger entries recorded for that store; moreover a successful top-up credit
appends exactly one CHARGE entry of +amount alongside the balance increase,
and a successful order debit appends exactly one ORDER_DEBIT entry of -total
alongside the balance decrease. -/
theorem C1_wallet_equals_ledger (db : DB) (sid tid : Nat) (items : List Item)
    (m rt txId : String) (amt : Int) (memo dep occ : Option String)
    (hinv : WalletInv db) :
    WalletInv (placeOrder db sid items).2 ∧
    WalletInv (applyTopupPaid db tid m rt).2 ∧
    WalletInv (ingestBank db txId amt memo dep occ).2 ∧
    (∀ tp, db.topups.find? (fun t => t.id = tid) = some tp →
      tp.status = "requested" →
      (applyTopupPaid db tid m rt).2.ledger = db.ledger ++
        [{ store_id := tp.store_id, type := "CHARGE", amount := tp.amount,
           ref_type := rt, ref_id := tid, memo := m }] ∧
      walletBalance (applyTopupPaid db tid m rt).2 tp.store_id =
        walletBalance db tp.store_id + tp.amount) ∧
    (∀ oid db', placeOrder db sid items = (.ok oid, db') →
      ∃ total, db'.ledger = db.ledger ++
        [{ store_id := sid, type := "ORDER_DEBIT", amount := -total,
           ref_type := "ORDER", ref_id := oid, memo := "발주 결제 차감" }] ∧
        walletBalance db' sid = walletBalance db sid - total) := by
  refine ⟨walletInv_placeOrder db sid items hinv,
    walletInv_applyTopupPaid db tid m rt hinv,
    walletInv_ingestBank db txId amt memo dep occ hinv, ?_, ?_⟩
  · intro tp hfind hreq
    rw [applyTopupPaid_requested db tid m rt tp hfind hreq]
    refine ⟨rfl, ?_⟩
    unfold walletBalance
    show (findWallet (upsertWallet db.wallets tp.store_id tp.amount)
      tp.store_id).getD 0 = _
    rw [findWallet_upsert_self]
    rfl
  · intro oid db' hok
    obtain ⟨st, priced, _, _, hw, _, hl⟩ :=
      placeOrder_ok_wallet db sid items oid db' hok
    exact ⟨lineTotals priced, hl, hw⟩

/-- Concrete state for the C1 witness. -/
def exdbC1 : DB :=
  ⟨[(1, 10)], [⟨100, 10, 2000⟩], [], [],
   [⟨7, 1, 5000, "requested", some "10-1-7"⟩], [], [], [], 1⟩

theorem C1_wallet_equals_ledger_witness :
    WalletInv exdbC1 ∧
    WalletInv (placeOrder exdbC1 1 [⟨100, 2⟩]).2 ∧
    WalletInv (applyTopupPaid exdbC1 7 "입금확인 충전" "TOPUP").2 ∧
    WalletInv (ingestBank exdbC1 "TX1" 5000 (some "10-1-7") none none).2 :=
  ⟨fun _ => rfl,
   (C1_wallet_equals_ledger exdbC1 1 7 [⟨100, 2⟩] "입금확인 충전" "TOPUP" "TX1"
     5000 (some "10-1-7") none none (fun _ => rfl)).1,
   (C1_wallet_equals_ledger exdbC1 1 7 [⟨100, 2⟩] "입금확인 충전" "TOPUP" "TX1"
     5000 (some "10-1-7") none none (fun _ => rfl)).2.1,
   (C1_wallet_equals_ledger exdbC1 1 7 [⟨100, 2⟩] "입금확인 충전" "TOPUP" "TX1"
     5000 (some "10-1-7") none none (fun _ => rfl)).2.2.1⟩

/-- C2: when the computed order total exceeds the wallet balance, placeOrder
fails with InsufficientFunds carrying needed = total - balance and the whole
state is left unchanged (no wallet debit, no order row, no order items, no
ledger entry). -/
theorem C2_insufficient_funds_rollback (db : DB) (sid : Nat)
    (items : List Item) (st : Nat × Nat) (priced : List (Item × Int))
    (h0 : ¬ (sid = 0 ∨ items = []))
    (hst : db.stores.find? (fun s => s.1 = sid) = some st)
    (hpr : priceItems db st.2 items = .ok priced)
    (hlt : walletBalance db sid < lineTotals priced) :
    placeOrder db sid items =
      (.insufficientFunds (lineTotals priced - walletBalance db sid), db) := by
  unfold walletBalance at hlt
  simp [placeOrder, h0, hst, hpr, hlt, walletBalance]

/-- Concrete state for the C2 witness (the spec scenario: balance 1000,
order total 4000, shortfall 3000). -/
def exdbC2 : DB :=
  ⟨[(1, 10)], [⟨100, 10, 2000⟩], [(1, 1000)], [], [], [], [], [], 1⟩

theorem C2_insufficient_funds_rollback_witness :
    walletBalance exdbC2 1 < lineTotals [(⟨100, 2⟩, 2000)] ∧
    placeOrder exdbC2 1 [⟨100, 2⟩] =
      (.insufficientFunds
        (lineTotals [(⟨100, 2⟩, 2000)] - walletBalance exdbC2 1), exdbC2) :=
  ⟨by decide,
   C2_insufficient_funds_rollback exdbC2 1 [⟨100, 2⟩] (1, 10)
     [(⟨100, 2⟩, 2000)] (by decide) rfl rfl (by decide)⟩

/-- C7: parsing the deposit code generated from a triple of positive ids
recovers exactly that triple, and two triples with distinct top-up ids always
yield distinct deposit codes. -/
theorem C7_deposit_code_roundtrip (h s t h₂ s₂ t₂ : Nat)
    (_hp : 1 ≤ h) (_sp : 1 ≤ s) (_tp : 1 ≤ t)
    (_hp₂ : 1 ≤ h₂) (_sp₂ : 1 ≤ s₂) (_tp₂ : 1 ≤ t₂) (hne : t ≠ t₂) :
    extractDepositCode (makeDepositCode h s t) = some (h, s, t) ∧
    makeDepositCode h s t ≠ makeDepositCode h₂ s₂ t₂ :=
  ⟨extract_make h s t, fun he => hne (make_inj_topup he)⟩

theorem C7_deposit_code_roundtrip_witness :
    (1 ≤ 10 ∧ 1 ≤ 23 ∧ 1 ≤ 104 ∧ 1 ≤ 10 ∧ 1 ≤ 23 ∧ 1 ≤ 105 ∧ 104 ≠ 105) ∧
    extractDepositCode (makeDepositCode 10 23 104) = some (10, 23, 104) ∧
    makeDepositCode 10 23 104 ≠ makeDepositCode 10 23 105 :=
  ⟨by decide,
   C7_deposit_code_roundtrip 10 23 104 10 23 105 (by decide) (by decide)
     (by decide) (by decide) (by decide) (by decide) (by decide)⟩

/-- Concrete state for C3: one requested top-up of 5000 for store 1. -/
def exdbC3 : DB :=
  ⟨[(1, 10)], [], [], [], [⟨7, 1, 5000, "requested", some "10-1-7"⟩],
   [], [], [], 1⟩

/-- C3 counterexample: the first successful approval returns the updated
wallet row (balance 5000), but the second call's already-paid response
carries no wallet balance at all, so it does not return the balance the
first call returned. -/
theorem C3_counterexample :
    ((applyTopupPaid exdbC3 7 "입금확인 충전" "TOPUP").1).wallet =
      some (1, 5000) ∧
    ((applyTopupPaid (applyTopupPaid exdbC3 7 "입금확인 충전" "TOPUP").2 7
      "입금확인 충전" "TOPUP").1).isOk = true ∧
    ((applyTopupPaid (applyTopupPaid exdbC3 7 "입금확인 충전" "TOPUP").2 7
      "입금확인 충전" "TOPUP").1).wallet = none := by
  decide

/-- C3 (amended): a call on an already-paid top-up returns success with no
state change; after a first successful approval a second call returns
success, leaves the state unchanged and applies no further credit, but its
response carries no wallet balance (the first call's response does). -/
theorem C3_already_paid_idempotent (db : DB) (tid : Nat) (m m₂ rt rt₂ : String)
    (tp : Topup) (hfind : db.topups.find? (fun t => t.id = tid) = some tp) :
    (tp.status = "paid" →
      applyTopupPaid db tid m rt = (.alreadyPaid tid tp.store_id, db)) ∧
    (tp.status = "requested" →
      (applyTopupPaid db tid m rt).1.isOk = true ∧
      applyTopupPaid (applyTopupPaid db tid m rt).2 tid m₂ rt₂ =
        (.alreadyPaid tid tp.store_id, (applyTopupPaid db tid m rt).2) ∧
      ((applyTopupPaid (applyTopupPaid db tid m rt).2 tid m₂ rt₂).1).wallet =
        none) := by
  constructor
  · intro hp
    exact applyTopupPaid_paid db tid m rt tp hfind hp
  · intro hr
    have h1 := applyTopupPaid_requested db tid m rt tp hfind hr
    have hfind₂ : ((applyTopupPaid db tid m rt).2).topups.find?
        (fun t => t.id = tid) = some { tp with status := "paid" } := by
      rw [h1]
      exact find?_topup_update db.topups tid tp "paid" hfind
    have h2 := applyTopupPaid_paid ((applyTopupPaid db tid m rt).2) tid m₂ rt₂
      { tp with status := "paid" } hfind₂ rfl
    refine ⟨?_, ?_, ?_⟩
    · rw [h1]
      rfl
    · exact h2
    · rw [h2]
      rfl

theorem C3_already_paid_idempotent_witness :
    exdbC3.topups.find? (fun t => t.id = 7) =
      some ⟨7, 1, 5000, "requested", some "10-1-7"⟩ ∧
    ((Topup.status ⟨7, 1, 5000, "requested", some "10-1-7"⟩ = "paid" →
      applyTopupPaid exdbC3 7 "m" "TOPUP" = (.alreadyPaid 7 1, exdbC3)) ∧
     (Topup.status ⟨7, 1, 5000, "requested", some "10-1-7"⟩ = "requested" →
      (applyTopupPaid exdbC3 7 "m" "TOPUP").1.isOk = true ∧
      applyTopupPaid (applyTopupPaid exdbC3 7 "m" "TOPUP").2 7 "m2" "BANK" =
        (.alreadyPaid 7 1, (applyTopupPaid exdbC3 7 "m" "TOPUP").2) ∧
      ((applyTopupPaid (applyTopupPaid exdbC3 7 "m" "TOPUP").2 7 "m2"
        "BANK").1).wallet = none)) :=
  ⟨rfl, C3_already_paid_idempotent exdbC3 7 "m" "m2" "TOPUP" "BANK"
    ⟨7, 1, 5000, "requested", some "10-1-7"⟩ rfl⟩

/-- C4: a successful placeOrder debits the wallet by exactly the catalog
total, inserts one pending order row with that total, inserts one order-item
row per line carrying the snapshotted unit price and line total, and appends
one ORDER_DEBIT ledger entry of -total whose ref id is the new order id. -/
theorem C4_order_success_effects (db : DB) (sid : Nat) (items : List Item)
    (oid : Nat) (db' : DB) (h : placeOrder db sid items = (.ok oid, db')) :
    ∃ st priced,
      db.stores.find? (fun s => s.1 = sid) = some st ∧
      priceItems db st.2 items = .ok priced ∧
      priced.map Prod.fst = items ∧
      (∀ x ∈ priced, priceOf db st.2 x.1.productId = some x.2) ∧
      oid = db.next_order_id ∧
      db'.orders = db.orders ++
        [{ id := oid, store_id := sid, head_office_id := st.2,
           status := "pending", total_amount := lineTotals priced }] ∧
      db'.order_items = db.order_items ++ priced.map
        (fun x => { order_id := oid, product_id := x.1.productId,
                    qty := x.1.qty, unit_price := x.2,
                    line_total := x.2 * x.1.qty }) ∧
      db'.ledger = db.ledger ++
        [{ store_id := sid, type := "ORDER_DEBIT",
           amount := -(lineTotals priced), ref_type := "ORDER",
           ref_id := oid, memo := "발주 결제 차감" }] ∧
      walletBalance db' sid = walletBalance db sid - lineTotals priced := by
  obtain ⟨st, priced, hst, hpr, hbal, hoid, hdb⟩ :=
    placeOrder_eq_ok db sid items oid db' h
  obtain ⟨hmap, hall⟩ := priceItems_ok_spec db st.2 items priced hpr
  refine ⟨st, priced, hst, hpr, hmap, hall, hoid,
    by rw [hdb], by rw [hdb], by rw [hdb], ?_⟩
  rw [hdb]
  unfold walletBalance
  show (findWallet (updateWallet _ sid (fun b => b - lineTotals priced))
    sid).getD 0 = _
  rw [findWallet_update_self, findWallet_insert0]
  rfl

/-- Concrete state for the C4 witness (the spec scenario: balance 5000,
2 units at price 2000, total 4000). -/
def exdbC4 : DB :=
  ⟨[(1, 10)], [⟨100, 10, 2000⟩], [(1, 5000)], [], [], [], [], [], 1⟩

theorem C4_order_success_effects_witness :
    placeOrder exdbC4 1 [⟨100, 2⟩] =
      (.ok 1, (placeOrder exdbC4 1 [⟨100, 2⟩]).2) ∧
    (∃ st priced,
      exdbC4.stores.find? (fun s => s.1 = 1) = some st ∧
      priceItems exdbC4 st.2 [⟨100, 2⟩] = .ok priced ∧
      priced.map Prod.fst = [⟨100, 2⟩] ∧
      (∀ x ∈ priced, priceOf exdbC4 st.2 x.1.productId = some x.2) ∧
      1 = exdbC4.next_order_id ∧
      (placeOrder exdbC4 1 [⟨100, 2⟩]).2.orders = exdbC4.orders ++
        [{ id := 1, store_id := 1, head_office_id := st.2,
           status := "pending", total_amount := lineTotals priced }] ∧
      (placeOrder exdbC4 1 [⟨100, 2⟩]).2.order_items =
        exdbC4.order_items ++ priced.map
        (fun x => { order_id := 1, product_id := x.1.productId,
                    qty := x.1.qty, unit_price := x.2,
                    line_total := x.2 * x.1.qty }) ∧
      (placeOrder exdbC4 1 [⟨100, 2⟩]).2.ledger = exdbC4.ledger ++
        [{ store_id := 1, type := "ORDER_DEBIT",
           amount := -(lineTotals priced), ref_type := "ORDER",
           ref_id := 1, memo := "발주 결제 차감" }] ∧
      walletBalance (placeOrder exdbC4 1 [⟨100, 2⟩]).2 1 =
        walletBalance exdbC4 1 - lineTotals priced) :=
  ⟨by decide,
   C4_order_success_effects exdbC4 1 [⟨100, 2⟩] 1
     (placeOrder exdbC4 1 [⟨100, 2⟩]).2 (by decide)⟩

/-- C5: when some requested product id is absent from the store's head
office catalog, placeOrder fails with ProductMismatch naming such a product
id and leaves the state (wallet, orders, ledger) unchanged. -/
theorem C5_product_mismatch_rollback (db : DB) (sid : Nat)
    (items : List Item) (st : Nat × Nat)
    (h0 : ¬ (sid = 0 ∨ items = []))
    (hst : db.stores.find? (fun s => s.1 = sid) = some st)
    (hmiss : ∃ it ∈ items, priceOf db st.2 it.productId = none) :
    ∃ pid, priceOf db st.2 pid = none ∧ pid ∈ items.map Item.productId ∧
      placeOrder db sid items = (.productMismatch pid, db) := by
  obtain ⟨pid, herr, hnone, hmem⟩ :=
    priceItems_error_of_missing db st.2 items hmiss
  exact ⟨pid, hnone, hmem, by simp [placeOrder, h0, hst, herr]⟩

/-- Concrete state for the C5 witness: product 200 belongs to head office
99, not to store 1's head office 10. -/
def exdbC5 : DB :=
  ⟨[(1, 10)], [⟨200, 99, 7000⟩], [(1, 5000)], [], [], [], [], [], 1⟩

theorem C5_product_mismatch_rollback_witness :
    (∃ it ∈ ([⟨200, 1⟩] : List Item),
      priceOf exdbC5 10 it.productId = none) ∧
    (∃ pid, priceOf exdbC5 10 pid = none ∧
      pid ∈ ([⟨200, 1⟩] : List Item).map Item.productId ∧
      placeOrder exdbC5 1 [⟨200, 1⟩] = (.productMismatch pid, exdbC5)) :=
  ⟨⟨⟨200, 1⟩, by decide, rfl⟩,
   C5_product_mismatch_rollback exdbC5 1 [⟨200, 1⟩] (1, 10) (by decide)
     rfl ⟨⟨200, 1⟩, by decide, rfl⟩⟩

/-- C6: for two ingestBankTransaction calls with the same externalTxId, the
second is a no-op that returns success (duplicate) and changes no wallet,
ledger, top-up or bank state, so replaying the same external transaction
twice results in at most one credit. -/
theorem C6_ingest_replay_idempotent (db : DB) (txId : String) (a₁ a₂ : Int)
    (m₁ m₂ d₁ d₂ o₁ o₂ : Option String)
    (h1 : txId ≠ "") (h2 : a₁ ≠ 0) (h3 : a₂ ≠ 0) :
    ingestBank (ingestBank db txId a₁ m₁ d₁ o₁).2 txId a₂ m₂ d₂ o₂ =
      (.duplicate, (ingestBank db txId a₁ m₁ d₁ o₁).2) := by
  have h0 : ¬ (txId = "" ∨ a₂ = 0) := by
    rintro (he | he)
    · exact h1 he
    · exact h3 he
  exact ingestBank_dup _ txId a₂ m₂ d₂ o₂ h0
    (ingestBank_records db txId a₁ m₁ d₁ o₁ h1 h2)

/-- Concrete state for the C6 witness. -/
def exdbC6 : DB :=
  ⟨[(1, 10)], [], [], [], [⟨7, 1, 5000, "requested", some "10-1-7"⟩],
   [], [], [], 1⟩

theorem C6_ingest_replay_idempotent_witness :
    (("TX1" : String) ≠ "" ∧ (5000 : Int) ≠ 0) ∧
    ingestBank (ingestBank exdbC6 "TX1" 5000 (some "10-1-7") none none).2
      "TX1" 5000 (some "10-1-7") none none =
      (.duplicate,
       (ingestBank exdbC6 "TX1" 5000 (some "10-1-7") none none).2) :=
  ⟨⟨by decide, by decide⟩,
   C6_ingest_replay_idempotent exdbC6 "TX1" 5000 5000 (some "10-1-7")
     (some "10-1-7") none none none none (by decide) (by decide) (by decide)⟩

/-- Result and state of an ingest call that reached the credit step: the
credit runs on the state that already holds the dedup record. -/
theorem ingestBank_applied_shape (db : DB) (txId : String) (amt : Int)
    (memo dep occ : Option String) (r : TopupResult)
    (hres : (ingestBank db txId amt memo dep occ).1 = .applied r) :
    ∃ tid X,
      r = (applyTopupPaid { db with bank_processed := X } tid
        "KB 자동입금 확인 충전" "BANK").1 ∧
      (ingestBank db txId amt memo dep occ).2 =
        (applyTopupPaid { db with bank_processed := X } tid
          "KB 자동입금 확인 충전" "BANK").2 := by
  unfold ingestBank at hres ⊢
  by_cases h0 : txId = "" ∨ amt = 0
  · rw [if_pos h0] at hres
    cases hres
  rw [if_neg h0] at hres ⊢
  by_cases hdup : db.bank_processed.any (fun b => b.tx_id = txId) = true
  · rw [if_pos hdup] at hres
    cases hres
  rw [if_neg hdup] at hres ⊢
  rcases hext : extractDepositCode (memo.getD "") with _ | trip
  · rw [hext] at hres
    cases hres
  obtain ⟨h, s, t⟩ := trip
  rw [hext] at hres
  simp only at hres ⊢
  rcases hfind : db.topups.find?
      (fun tp => tp.deposit_code = some (makeDepositCode h s t)) with _ | tp
  · rw [hfind] at hres
    cases hres
  rw [hfind] at hres
  simp only at hres
  simp only [hfind]
  refine ⟨tp.id, _, ?_, rfl⟩
  injection hres with hres
  exact hres.symm

/-- Concrete state for C8: a top-up in a non-approvable state "canceled",
so the bank-matched credit step fails. -/
def exdbC8 : DB :=
  ⟨[(1, 10)], [], [], [], [⟨7, 1, 5000, "canceled", some "10-1-7"⟩],
   [], [], [], 1⟩

/-- C8 counterexample: an ingest whose credit step fails (the matched top-up
is in state "canceled") is not rolled back as a whole: the bank-transaction
dedup record persists, so the final state differs from the initial one even
though the operation failed. -/
theorem C8_counterexample :
    (ingestBank exdbC8 "TX9" 5000 (some "입금 10-1-7") none none).1 =
      .applied (.invalidState "canceled") ∧
    (.invalidState "canceled" : TopupResult).isOk = false ∧
    (ingestBank exdbC8 "TX9" 5000 (some "입금 10-1-7") none none).2 ≠
      exdbC8 := by
  decide

/-- C8 (amended): placeOrder and applyTopupPaid are each all-or-nothing (any
failure leaves the state exactly as it was); the ingest-plus-credit path is
all-or-nothing for wallet, ledger, top-up and order state, but the
bank-transaction dedup record is written outside the credit transaction and
persists when the credit step fails. -/
theorem C8_units_of_work (db : DB) (sid tid : Nat) (items : List Item)
    (m rt txId : String) (amt : Int) (memo dep occ : Option String) :
    ((∀ oid, (placeOrder db sid items).1 ≠ .ok oid) →
      (placeOrder db sid items).2 = db) ∧
    ((applyTopupPaid db tid m rt).1.isOk = false →
      (applyTopupPaid db tid m rt).2 = db) ∧
    (∀ r, (ingestBank db txId amt memo dep occ).1 = .applied r →
      r.isOk = false →
      (ingestBank db txId amt memo dep occ).2.wallets = db.wallets ∧
      (ingestBank db txId amt memo dep occ).2.ledger = db.ledger ∧
      (ingestBank db txId amt memo dep occ).2.topups = db.topups ∧
      (ingestBank db txId amt memo dep occ).2.orders = db.orders ∧
      (ingestBank db txId amt memo dep occ).2.order_items =
        db.order_items) := by
  refine ⟨placeOrder_fail_eq db sid items, applyTopupPaid_not_ok_eq db tid m rt, ?_⟩
  intro r hres hrok
  obtain ⟨tid₂, X, hr, h2⟩ :=
    ingestBank_applied_shape db txId amt memo dep occ r hres
  have hfail : (applyTopupPaid { db with bank_processed := X } tid₂
      "KB 자동입금 확인 충전" "BANK").1.isOk = false := by
    rw [← hr]
    exact hrok
  have h3 := applyTopupPaid_not_ok_eq _ tid₂ _ _ hfail
  rw [h2, h3]
  exact ⟨rfl, rfl, rfl, rfl, rfl⟩

theorem C8_units_of_work_witness :
    (placeOrder exdbC8 1 [⟨100, 2⟩]).2 = exdbC8 ∧
    (applyTopupPaid exdbC8 7 "m" "TOPUP").2 = exdbC8 ∧
    ((ingestBank exdbC8 "TX9" 5000 (some "입금 10-1-7") none none).2.wallets =
      exdbC8.wallets ∧
     (ingestBank exdbC8 "TX9" 5000 (some "입금 10-1-7") none none).2.ledger =
      exdbC8.ledger ∧
     (ingestBank exdbC8 "TX9" 5000 (some "입금 10-1-7") none none).2.topups =
      exdbC8.topups ∧
     (ingestBank exdbC8 "TX9" 5000 (some "입금 10-1-7") none none).2.orders =
      exdbC8.orders ∧
     (ingestBank exdbC8 "TX9" 5000 (some "입금 10-1-7") none
       none).2.order_items = exdbC8.order_items) :=
  ⟨(C8_units_of_work exdbC8 1 7 [⟨100, 2⟩] "m" "TOPUP" "TX9" 5000
      (some "입금 10-1-7") none none).1
    (by
      intro oid hcon
      rw [(by decide : (placeOrder exdbC8 1 [⟨100, 2⟩]).1 =
        OrderResult.productMismatch 100)] at hcon
      exact OrderResult.noConfusion hcon),
   (C8_units_of_work exdbC8 1 7 [⟨100, 2⟩] "m" "TOPUP" "TX9" 5000
      (some "입금 10-1-7") none none).2.1 (by decide),
   (C8_units_of_work exdbC8 1 7 [⟨100, 2⟩] "m" "TOPUP" "TX9" 5000
      (some "입금 10-1-7") none none).2.2 (.invalidState "canceled")
     (by decide) (by decide)⟩

/-- C9: modelling each transaction as one atomic step (the SELECT ... FOR
UPDATE row locks make racing transactions serialize), two calls of
applyTopupPaid on the same top-up apply exactly one credit and write exactly
one CHARGE ledger entry for it, the later call still reporting success; and
two serialized order placements against the same store can only both succeed
when their combined totals fit within the initial balance, so the wallet is
never spent below what its ledger supports. -/
theorem C9_no_double_credit_or_spend (db : DB) (tid : Nat) (tp : Topup)
    (m₁ m₂ rt₁ rt₂ : String) (sid : Nat) (items₁ items₂ : List Item)
    (hfind : db.topups.find? (fun t => t.id = tid) = some tp)
    (hreq : tp.status = "requested") :
    countCharge
      ((applyTopupPaid (applyTopupPaid db tid m₁ rt₁).2 tid m₂ rt₂).2.ledger)
      tid = countCharge db.ledger tid + 1 ∧
    walletBalance
      (applyTopupPaid (applyTopupPaid db tid m₁ rt₁).2 tid m₂ rt₂).2
      tp.store_id = walletBalance db tp.store_id + tp.amount ∧
    ((applyTopupPaid (applyTopupPaid db tid m₁ rt₁).2 tid m₂ rt₂).1).isOk =
      true ∧
    (∀ oid₁ db₁ oid₂ db₂ st priced₁ priced₂,
      placeOrder db sid items₁ = (.ok oid₁, db₁) →
      placeOrder db₁ sid items₂ = (.ok oid₂, db₂) →
      db.stores.find? (fun s => s.1 = sid) = some st →
      priceItems db st.2 items₁ = .ok priced₁ →
      priceItems db st.2 items₂ = .ok priced₂ →
      lineTotals priced₁ + lineTotals priced₂ ≤ walletBalance db sid) := by
  have h1 := applyTopupPaid_requested db tid m₁ rt₁ tp hfind hreq
  have hfind₂ : ((applyTopupPaid db tid m₁ rt₁).2).topups.find?
      (fun t => t.id = tid) = some { tp with status := "paid" } := by
    rw [h1]
    exact find?_topup_update db.topups tid tp "paid" hfind
  have h2 := applyTopupPaid_paid ((applyTopupPaid db tid m₁ rt₁).2) tid m₂ rt₂
    { tp with status := "paid" } hfind₂ rfl
  refine ⟨?_, ?_, ?_, ?_⟩
  · rw [h2, h1]
    simp [countCharge_append, countCharge]
  · rw [h2, h1]
    unfold walletBalance
    show (findWallet (upsertWallet db.wallets tp.store_id tp.amount)
      tp.store_id).getD 0 = _
    rw [findWallet_upsert_self]
    rfl
  · rw [h2]
    rfl
  · intro oid₁ db₁ oid₂ db₂ st priced₁ priced₂ ho₁ ho₂ hst hpr₁ hpr₂
    obtain ⟨st₁, p₁, hst₁, hpr₁', hw₁, hle₁, _⟩ :=
      placeOrder_ok_wallet db sid items₁ oid₁ db₁ ho₁
    have hst_eq : st₁ = st := Option.some.inj (hst₁.symm.trans hst)
    rw [hst_eq] at hpr₁'
    have hp₁ : p₁ = priced₁ := by
      have := hpr₁'.symm.trans hpr₁
      injection this
    rw [hp₁] at hw₁
    obtain ⟨st₂, p₂, hst₂, hpr₂', hw₂, hle₂, _⟩ :=
      placeOrder_ok_wallet db₁ sid items₂ oid₂ db₂ ho₂
    have hfr := placeOrder_frame db sid items₁
    have hdb₁stores : db₁.stores = db.stores := by
      have hx := hfr.1
      rw [ho₁] at hx
      simpa using hx
    have hdb₁prod : db₁.products = db.products := by
      have hx := hfr.2.1
      rw [ho₁] at hx
      simpa using hx
    rw [hdb₁stores] at hst₂
    have hst₂eq : st₂ = st := Option.some.inj (hst₂.symm.trans hst)
    rw [hst₂eq, priceItems_congr db db₁ st.2 hdb₁prod items₂] at hpr₂'
    have hp₂ : p₂ = priced₂ := by
      have := hpr₂'.symm.trans hpr₂
      injection this
    rw [hp₂, hw₁] at hle₂
    omega

/-- Concrete state for the C9 witness. -/
def exdbC9 : DB :=
  ⟨[(1, 10)], [⟨100, 10, 2000⟩], [(1, 5000)], [],
   [⟨7, 1, 5000, "requested", some "10-1-7"⟩], [], [], [], 1⟩

theorem C9_no_double_credit_or_spend_witness :
    exdbC9.topups.find? (fun t => t.id = 7) =
      some ⟨7, 1, 5000, "requested", some "10-1-7"⟩ ∧
    countCharge
      ((applyTopupPaid (applyTopupPaid exdbC9 7 "a" "TOPUP").2 7 "b"
        "BANK").2.ledger) 7 = countCharge exdbC9.ledger 7 + 1 ∧
    walletBalance
      (applyTopupPaid (applyTopupPaid exdbC9 7 "a" "TOPUP").2 7 "b" "BANK").2
      1 = walletBalance exdbC9 1 + 5000 ∧
    ((applyTopupPaid (applyTopupPaid exdbC9 7 "a" "TOPUP").2 7 "b"
      "BANK").1).isOk = true :=
  ⟨rfl,
   (C9_no_double_credit_or_spend exdbC9 7
     ⟨7, 1, 5000, "requested", some "10-1-7"⟩ "a" "b" "TOPUP" "BANK" 1
     [⟨100, 1⟩] [⟨100, 1⟩] rfl rfl).1,
   (C9_no_double_credit_or_spend exdbC9 7
     ⟨7, 1, 5000, "requested", some "10-1-7"⟩ "a" "b" "TOPUP" "BANK" 1
     [⟨100, 1⟩] [⟨100, 1⟩] rfl rfl).2.1,
   (C9_no_double_credit_or_spend exdbC9 7
     ⟨7, 1, 5000, "requested", some "10-1-7"⟩ "a" "b" "TOPUP" "BANK" 1
     [⟨100, 1⟩] [⟨100, 1⟩] rfl rfl).2.2.1⟩

/-- C10: in the bank-ingestion path with a memo matching an existing top-up,
the dedup record for the externalTxId is inserted in its own statement
before applyTopupPaid is invoked and outside the credit transaction; if the
credit step then fails, the transaction id stays recorded and nothing else
changes, and every redelivery of the same externalTxId is a success no-op,
so the credit is never retried or applied for that transaction. -/
theorem C10_dedup_outside_credit (db : DB) (txId : String) (amount : Int)
    (mtext : String) (dep occ : Option String) (hh ss tt : Nat) (tp : Topup)
    (h1 : txId ≠ "") (h2 : amount ≠ 0)
    (hdup : db.bank_processed.any (fun b => b.tx_id = txId) = false)
    (hext : extractDepositCode mtext = some (hh, ss, tt))
    (hfind : db.topups.find?
      (fun x => x.deposit_code = some (makeDepositCode hh ss tt)) = some tp) :
    ∃ db₁,
      db₁ = { db with bank_processed := db.bank_processed ++
        [{ tx_id := txId, amount := amount, depositor := dep,
           memo := some mtext, occurred_at := occ,
           matched_topup_id := some tp.id,
           matched_store_id := some tp.store_id }] } ∧
      ingestBank db txId amount (some mtext) dep occ =
        (.applied (applyTopupPaid db₁ tp.id "KB 자동입금 확인 충전" "BANK").1,
         (applyTopupPaid db₁ tp.id "KB 자동입금 확인 충전" "BANK").2) ∧
      ((applyTopupPaid db₁ tp.id "KB 자동입금 확인 충전" "BANK").1.isOk = false →
        (ingestBank db txId amount (some mtext) dep occ).2 = db₁) ∧
      (∀ a₂ m₂ d₂ o₂, a₂ ≠ 0 →
        ingestBank (ingestBank db txId amount (some mtext) dep occ).2 txId
          a₂ m₂ d₂ o₂ =
          (.duplicate, (ingestBank db txId amount (some mtext) dep occ).2)) := by
  have h0 : ¬ (txId = "" ∨ amount = 0) := by
    rintro (he | he)
    · exact h1 he
    · exact h2 he
  have hdup' : ¬ db.bank_processed.any (fun b => b.tx_id = txId) = true := by
    simp [hdup]
  have heq : ingestBank db txId amount (some mtext) dep occ =
      (.applied (applyTopupPaid
          { db with bank_processed := db.bank_processed ++
            [{ tx_id := txId, amount := amount, depositor := dep,
               memo := some mtext, occurred_at := occ,
               matched_topup_id := some tp.id,
               matched_store_id := some tp.store_id }] }
          tp.id "KB 자동입금 확인 충전" "BANK").1,
       (applyTopupPaid
          { db with bank_processed := db.bank_processed ++
            [{ tx_id := txId, amount := amount, depositor := dep,
               memo := some mtext, occurred_at := occ,
               matched_topup_id := some tp.id,
               matched_store_id := some tp.store_id }] }
          tp.id "KB 자동입금 확인 충전" "BANK").2) := by
    unfold ingestBank
    rw [if_neg h0, if_neg hdup']
    simp only [Option.getD_some, hext, hfind]
  refine ⟨_, rfl, heq, ?_, ?_⟩
  · intro hfail
    rw [heq]
    exact applyTopupPaid_not_ok_eq _ tp.id _ _ hfail
  · intro a₂ m₂ d₂ o₂ ha₂
    have h0₂ : ¬ (txId = "" ∨ a₂ = 0) := by
      rintro (he | he)
      · exact h1 he
      · exact ha₂ he
    exact ingestBank_dup _ txId a₂ m₂ d₂ o₂ h0₂
      (ingestBank_records db txId amount (some mtext) dep occ h1 h2)

/-- Concrete state for the C10 witness: a matched top-up in the
non-approvable state "canceled", so the credit step fails. -/
def exdbC10 : DB :=
  ⟨[(1, 10)], [], [], [], [⟨7, 1, 5000, "canceled", some "10-1-7"⟩],
   [], [], [], 1⟩

theorem C10_dedup_outside_credit_witness :
    (("TXA" : String) ≠ "" ∧ (5000 : Int) ≠ 0 ∧
     exdbC10.bank_processed.any (fun b => b.tx_id = "TXA") = false ∧
     extractDepositCode "입금 10-1-7" = some (10, 1, 7)) ∧
    (∃ db₁,
      db₁ = { exdbC10 with bank_processed := exdbC10.bank_processed ++
        [{ tx_id := "TXA", amount := 5000, depositor := none,
           memo := some "입금 10-1-7", occurred_at := none,
           matched_topup_id := some 7, matched_store_id := some 1 }] } ∧
      ingestBank exdbC10 "TXA" 5000 (some "입금 10-1-7") none none =
        (.applied (applyTopupPaid db₁ 7 "KB 자동입금 확인 충전" "BANK").1,
         (applyTopupPaid db₁ 7 "KB 자동입금 확인 충전" "BANK").2) ∧
      ((applyTopupPaid db₁ 7 "KB 자동입금 확인 충전" "BANK").1.isOk = false →
        (ingestBank exdbC10 "TXA" 5000 (some "입금 10-1-7") none none).2 =
          db₁) ∧
      (∀ a₂ m₂ d₂ o₂, a₂ ≠ 0 →
        ingestBank
          (ingestBank exdbC10 "TXA" 5000 (some "입금 10-1-7") none none).2
          "TXA" a₂ m₂ d₂ o₂ =
          (.duplicate,
           (ingestBank exdbC10 "TXA" 5000 (some "입금 10-1-7") none
             none).2))) :=
  ⟨⟨by decide, by decide, rfl, by decide⟩,
   C10_dedup_outside_credit exdbC10 "TXA" 5000 "입금 10-1-7" none none 10 1 7
     ⟨7, 1, 5000, "canceled", some "10-1-7"⟩ (by decide) (by decide) rfl
     (by decide) rfl⟩
